import Mathlib

/-!
Shallow embedding of the SOS game engine (game_logic.py) and the replay loop
of main.py, with theorems checking the specification claims.

Python strings for players and letters are modelled by closed enumerations;
the board is a list of rows of optional letters, indexed exactly as the
source indexes its lists under the in_bounds guards. Python lists and tuples
of four integers (the sos-line endpoint quadruples) are modelled by a sum
type PySeq4 that keeps the list/tuple distinction, because Python equality
distinguishes them.
-/

namespace SOS

/-- Player identity; the source uses the strings for blue and red. -/
inductive Player where
  | blue
  | red
deriving DecidableEq

/-- toggle_turn: red if the turn was blue, else blue. -/
def togglePlayer : Player → Player
  | .blue => .red
  | .red => .blue

/-- Cell letter; the source stores the strings for S and O. -/
inductive Letter where
  | S
  | O
deriving DecidableEq

/-- The Python string stored for a letter. -/
def Letter.str : Letter → String
  | .S => "S"
  | .O => "O"

/-- Python strip with the default whitespace set, on the character list of
a string: drop leading and trailing whitespace. -/
def pyStrip (l : List Char) : List Char :=
  ((l.dropWhile Char.isWhitespace).reverse.dropWhile Char.isWhitespace).reverse

/-- Python upper on the character list of a string: uppercase each
character. -/
def pyUpper (l : List Char) : List Char :=
  l.map Char.toUpper

/-- Normalization and validation of the letter argument of make_move:
letter.strip().upper(), then membership in the pair of valid letters. -/
def normLetter (s : String) : Option Letter :=
  let t := pyUpper (pyStrip s.data)
  if t = ['S'] then some Letter.S
  else if t = ['O'] then some Letter.O
  else none

/-- An sos-line endpoint pair (r1, c1, r2, c2) as produced by check_for_sos. -/
structure Quad where
  r1 : Int
  c1 : Int
  r2 : Int
  c2 : Int
deriving DecidableEq

/-- A Python sequence of the four endpoint integers, keeping the
list/tuple distinction that Python equality observes. -/
inductive PySeq4 where
  | pylist (q : Quad)
  | pytuple (q : Quad)
deriving DecidableEq

/-- The quadruple held by a PySeq4, shape forgotten (what JSON keeps). -/
def PySeq4.quad : PySeq4 → Quad
  | .pylist q => q
  | .pytuple q => q

/-- One move-history entry: {player, r, c, letter, sos}. -/
structure MoveRec where
  player : Player
  r : Int
  c : Int
  letter : Letter
  sos : List PySeq4
deriving DecidableEq

/-- General-mode score dictionary. -/
structure Scores where
  blue : Int
  red : Int
deriving DecidableEq

/-- Score lookup by player key. -/
def Scores.get (s : Scores) : Player → Int
  | .blue => s.blue
  | .red => s.red

/-- Score increment at a player key. -/
def Scores.add (s : Scores) (p : Player) (k : Int) : Scores :=
  match p with
  | .blue => { s with blue := s.blue + k }
  | .red => { s with red := s.red + k }

/-- A history entry as it appears in a JSON payload: the sos quadruples are
JSON arrays, carrying no list/tuple distinction. -/
structure PayloadRec where
  player : Player
  r : Int
  c : Int
  letter : Letter
  sos : List Quad
deriving DecidableEq

/-- Scores dictionary in a payload; each key may be absent. -/
structure PayloadScores where
  blue : Option Int
  red : Option Int
deriving DecidableEq

/-- A persisted record payload (the parsed JSON object); each field may be
absent. -/
structure Payload where
  board_size : Option Int
  move_history : Option (List PayloadRec)
  mode : Option String
  winner : Option (Option Player)
  scores : Option PayloadScores
deriving DecidableEq

/-- Grids: a list of rows, each a list of optional cell values. -/
abbrev Grid (α : Type) := List (List (Option α))

/-- A fresh n-by-n grid of empty cells (range of a negative size is empty,
as in Python). -/
def mkGrid (α : Type) (n : Int) : Grid α :=
  List.replicate n.toNat (List.replicate n.toNat none)

/-- Raw read board[r][c]; only reached under in_bounds guards in the code
paths modelled here. -/
def gridGet {α : Type} (b : Grid α) (r c : Int) : Option α :=
  match b[r.toNat]? with
  | some row => (row[c.toNat]?).getD none
  | none => none

/-- Raw write board[r][c] = v; only reached under in_bounds guards. -/
def gridSet {α : Type} (b : Grid α) (r c : Int) (v : Option α) : Grid α :=
  b.set r.toNat ((b[r.toNat]?.getD []).set c.toNat v)

/-- Shared base state of both game classes. -/
structure BaseSOSGame where
  board_size : Int
  board : Grid Letter
  current_turn : Player
  move_count : Nat
  game_over : Bool
  last_sos_lines : List Quad
  last_move_player : Option Player
  owner_board : Grid Player
  move_history : List MoveRec
deriving DecidableEq

namespace BaseSOSGame

/-- in_bounds(r, c): 0 <= r < board_size and 0 <= c < board_size. -/
def in_bounds (g : BaseSOSGame) (r c : Int) : Bool :=
  decide (0 ≤ r ∧ r < g.board_size ∧ 0 ≤ c ∧ c < g.board_size)

/-- cell_empty(r, c): in bounds and the cell holds None. -/
def cell_empty (g : BaseSOSGame) (r c : Int) : Bool :=
  g.in_bounds r c && (gridGet g.board r c).isNone

/-- get_cell(r, c): None when out of bounds, else the cell value. -/
def get_cell (g : BaseSOSGame) (r c : Int) : Option Letter :=
  if g.in_bounds r c then gridGet g.board r c else none

/-- get_cell_owner(r, c): None when out of bounds, else the owner value. -/
def get_cell_owner (g : BaseSOSGame) (r c : Int) : Option Player :=
  if g.in_bounds r c then gridGet g.owner_board r c else none

/-- form_sos(r, c, dr, dc): the three-cell window starting at (r, c) in
direction (dr, dc) is fully in bounds and reads S, O, S. -/
def form_sos (g : BaseSOSGame) (r c dr dc : Int) : Bool :=
  if g.in_bounds r c && g.in_bounds (r + dr) (c + dc)
      && g.in_bounds (r + 2*dr) (c + 2*dc) then
    decide (gridGet g.board r c = some Letter.S)
      && decide (gridGet g.board (r + dr) (c + dc) = some Letter.O)
      && decide (gridGet g.board (r + 2*dr) (c + 2*dc) = some Letter.S)
  else false

/-- The candidate lines contributed by one direction vector in the loop of
check_for_sos: first the vector itself, then its negation. -/
def sosCandidates (g : BaseSOSGame) (r c : Int) (d : Int × Int) : List Quad :=
  (if g.form_sos r c d.1 d.2 then [⟨r, c, r + 2*d.1, c + 2*d.2⟩] else [])
    ++ (if g.form_sos r c (-d.1) (-d.2) then [⟨r, c, r - 2*d.1, c - 2*d.2⟩] else [])

/-- Order-preserving duplicate removal, as the unique-list loop does. -/
def pyDedup (l : List Quad) : List Quad :=
  l.foldl (fun u s => if s ∈ u then u else u ++ [s]) []

/-- check_for_sos(r, c): scan the four direction vectors and their
negations, collect the lines found, remove duplicates. -/
def check_for_sos (g : BaseSOSGame) (r c : Int) : List Quad :=
  pyDedup ((([(0, 1), (1, 0), (1, 1), (1, -1)] : List (Int × Int)).map
    (g.sosCandidates r c)).flatten)

/-- is_board_full: move_count >= board_size * board_size. -/
def is_board_full (g : BaseSOSGame) : Bool :=
  decide (g.board_size * g.board_size ≤ (g.move_count : Int))

/-- The history entry appended by record_move: the sos tuples are converted
to lists for JSON friendliness. -/
def mkRec (player : Player) (r c : Int) (letter : Letter) (sos : List Quad) :
    MoveRec :=
  { player := player, r := r, c := c, letter := letter,
    sos := sos.map PySeq4.pylist }

/-- record_move: append the entry to the move history. -/
def record_move (g : BaseSOSGame) (player : Player) (r c : Int)
    (letter : Letter) (sos : List Quad) : BaseSOSGame :=
  { g with move_history := g.move_history ++ [mkRec player r c letter sos] }

/-- reset_game: fresh grids of the current board_size, blue to move, zero
moves, not over, empty metadata and history. The board_size field itself is
not changed here. -/
def reset_game (g : BaseSOSGame) : BaseSOSGame :=
  { g with
    board := mkGrid Letter g.board_size,
    current_turn := Player.blue,
    move_count := 0,
    game_over := false,
    last_sos_lines := [],
    last_move_player := none,
    owner_board := mkGrid Player g.board_size,
    move_history := [] }

/-- A history entry as serialized by json.dumps and re-parsed: both list and
tuple quadruples become JSON arrays. -/
def recToPayload (m : MoveRec) : PayloadRec :=
  { player := m.player, r := m.r, c := m.c, letter := m.letter,
    sos := m.sos.map PySeq4.quad }

/-- export_record of the base class, composed with the JSON round trip the
callers perform: board size and a deep copy of the move history. -/
def export_record (g : BaseSOSGame) : Payload :=
  { board_size := some g.board_size,
    move_history := some (g.move_history.map recToPayload),
    mode := none, winner := none, scores := none }

/-- A payload entry loaded into memory by import_record: the sos quadruples
are normalized to tuples. -/
def payloadToMem (m : PayloadRec) : MoveRec :=
  { player := m.player, r := m.r, c := m.c, letter := m.letter,
    sos := m.sos.map PySeq4.pytuple }

/-- import_record: reset_game first (grids built with the old board_size),
then set board_size from the payload (defaulting to the current size), then
populate the move history from the payload (defaulting to empty), each sos
quadruple normalized to a tuple. -/
def import_record (g : BaseSOSGame) (p : Payload) : BaseSOSGame :=
  let g1 := g.reset_game
  let g2 := { g1 with board_size := p.board_size.getD g1.board_size }
  { g2 with move_history := (p.move_history.getD []).map payloadToMem }

end BaseSOSGame

/-- The fresh base state built by the constructor: board size clamped to a
minimum of 3, then reset_game. -/
def BaseSOSGame.create (n : Int) : BaseSOSGame :=
  BaseSOSGame.reset_game
    { board_size := max 3 n, board := [], current_turn := Player.blue,
      move_count := 0, game_over := false, last_sos_lines := [],
      last_move_player := none, owner_board := [], move_history := [] }

/-- Simple-mode game state: base state plus the winner field. -/
structure SimpleSOSGame extends BaseSOSGame where
  winner : Option Player
deriving DecidableEq

/-- Simple-mode constructor: clamped fresh base state, winner None. -/
def SimpleSOSGame.create (n : Int) : SimpleSOSGame :=
  { toBaseSOSGame := BaseSOSGame.create n, winner := none }

/-- The placement block shared by both make_move bodies: write the letter,
bump the counter, record the owner and the acting player, all under the
turn pointer captured before any mutation. -/
def SimpleSOSGame.placed (g : SimpleSOSGame) (r c : Int) (L : Letter) :
    SimpleSOSGame :=
  { g with
    board := gridSet g.board r c (some L),
    move_count := g.move_count + 1,
    owner_board := gridSet g.owner_board r c (some g.current_turn),
    last_move_player := some g.current_turn }

/-- The sos lines check_for_sos finds right after the placement. -/
def SimpleSOSGame.sosFound (g : SimpleSOSGame) (r c : Int) (L : Letter) :
    List Quad :=
  (g.placed r c L).toBaseSOSGame.check_for_sos r c

/-- The mutation block of the simple make_move after the legality checks
passed: place the letter, detect sos lines, append the history entry; on a
non-empty line list set winner and game_over without toggling, else toggle
and declare a draw when the board is full. -/
def SimpleSOSGame.applyMove (g : SimpleSOSGame) (r c : Int) (L : Letter) :
    SimpleSOSGame :=
  let sos := g.sosFound r c L
  let recd : SimpleSOSGame :=
    { g.placed r c L with
      last_sos_lines := sos,
      move_history := g.move_history
        ++ [BaseSOSGame.mkRec g.current_turn r c L sos] }
  if sos.isEmpty then
    let t : SimpleSOSGame := { recd with current_turn := togglePlayer recd.current_turn }
    if t.toBaseSOSGame.is_board_full then { t with game_over := true } else t
  else
    { recd with winner := some g.current_turn, game_over := true }

/-- make_move of the simple game: reject when the game is over, when the
normalized letter is invalid, or when the cell is not empty; otherwise
mutate per applyMove and report success. -/
def SimpleSOSGame.make_move (g : SimpleSOSGame) (r c : Int) (letter : String) :
    Bool × SimpleSOSGame :=
  if g.game_over then (false, g)
  else
    match normLetter letter with
    | none => (false, g)
    | some L =>
      if g.toBaseSOSGame.cell_empty r c then (true, g.applyMove r c L)
      else (false, g)

/-- Simple-mode export_record: the base payload plus mode and winner. -/
def SimpleSOSGame.export_record (g : SimpleSOSGame) : Payload :=
  { g.toBaseSOSGame.export_record with
    mode := some ("simple"), winner := some g.winner }

/-- Simple mode does not override import_record: the base import runs on the
base fields and winner is left untouched. -/
def SimpleSOSGame.import_record (g : SimpleSOSGame) (p : Payload) :
    SimpleSOSGame :=
  { g with toBaseSOSGame := g.toBaseSOSGame.import_record p }

/-- General-mode game state: base state plus the score dictionary. -/
structure GeneralSOSGame extends BaseSOSGame where
  scores : Scores
deriving DecidableEq

/-- General-mode constructor: clamped fresh base state, zero scores. -/
def GeneralSOSGame.create (n : Int) : GeneralSOSGame :=
  { toBaseSOSGame := BaseSOSGame.create n, scores := { blue := 0, red := 0 } }

/-- The placement block of the general make_move, identical to the simple
one. -/
def GeneralSOSGame.placed (g : GeneralSOSGame) (r c : Int) (L : Letter) :
    GeneralSOSGame :=
  { g with
    board := gridSet g.board r c (some L),
    move_count := g.move_count + 1,
    owner_board := gridSet g.owner_board r c (some g.current_turn),
    last_move_player := some g.current_turn }

/-- The sos lines check_for_sos finds right after the placement. -/
def GeneralSOSGame.sosFound (g : GeneralSOSGame) (r c : Int) (L : Letter) :
    List Quad :=
  (g.placed r c L).toBaseSOSGame.check_for_sos r c

/-- The mutation block of the general make_move after the legality checks
passed: place, detect sos lines, add their count to the acting player score
when non-empty, append the history entry, toggle unconditionally, and end
the game when the board is full. -/
def GeneralSOSGame.applyMove (g : GeneralSOSGame) (r c : Int) (L : Letter) :
    GeneralSOSGame :=
  let sos := g.sosFound r c L
  let scored : GeneralSOSGame :=
    { g.placed r c L with
      last_sos_lines := sos,
      scores := if sos.isEmpty then g.scores
        else g.scores.add g.current_turn sos.length,
      move_history := g.move_history
        ++ [BaseSOSGame.mkRec g.current_turn r c L sos] }
  let t : GeneralSOSGame := { scored with current_turn := togglePlayer scored.current_turn }
  if t.board_size * t.board_size ≤ (t.move_count : Int) then
    { t with game_over := true }
  else t

/-- make_move of the general game: same legality checks as simple mode,
then the general mutation block. -/
def GeneralSOSGame.make_move (g : GeneralSOSGame) (r c : Int) (letter : String) :
    Bool × GeneralSOSGame :=
  if g.game_over then (false, g)
  else
    match normLetter letter with
    | none => (false, g)
    | some L =>
      if g.toBaseSOSGame.cell_empty r c then (true, g.applyMove r c L)
      else (false, g)

/-- General-mode export_record: the base payload plus mode and scores. -/
def GeneralSOSGame.export_record (g : GeneralSOSGame) : Payload :=
  { g.toBaseSOSGame.export_record with
    mode := some ("general"),
    scores := some { blue := some g.scores.blue, red := some g.scores.red } }

/-- General-mode import_record: the base import, then overwrite the scores
from the payload when a scores dictionary is present (absent keys default
to zero). -/
def GeneralSOSGame.import_record (g : GeneralSOSGame) (p : Payload) :
    GeneralSOSGame :=
  let g1 : GeneralSOSGame := { g with toBaseSOSGame := g.toBaseSOSGame.import_record p }
  match p.scores with
  | some sc => { g1 with scores := { blue := sc.blue.getD 0, red := sc.red.getD 0 } }
  | none => g1

/-- A raw move input (row, column, letter string) as a caller passes it. -/
abbrev MoveIn := Int × Int × String

/-- Play a list of raw inputs through the simple make_move, keeping the
state unchanged on each rejected move. -/
def playS (g : SimpleSOSGame) (ms : List MoveIn) : SimpleSOSGame :=
  ms.foldl (fun s m => (SimpleSOSGame.make_move s m.1 m.2.1 m.2.2).2) g

/-- Play a list of raw inputs through the general make_move, keeping the
state unchanged on each rejected move. -/
def playG (g : GeneralSOSGame) (ms : List MoveIn) : GeneralSOSGame :=
  ms.foldl (fun s m => (GeneralSOSGame.make_move s m.1 m.2.1 m.2.2).2) g

/-- One step of the replay loop of main.py in simple mode: force the turn
pointer to the recorded player, then call make_move with the recorded
row, column and letter string. -/
def replayStepS (g : SimpleSOSGame) (mv : MoveRec) : SimpleSOSGame :=
  (SimpleSOSGame.make_move { g with current_turn := mv.player }
    mv.r mv.c mv.letter.str).2

/-- Replay a move history in order through the simple make_move. -/
def replayS (g : SimpleSOSGame) (ms : List MoveRec) : SimpleSOSGame :=
  ms.foldl replayStepS g

/-- One step of the replay loop of main.py in general mode. -/
def replayStepG (g : GeneralSOSGame) (mv : MoveRec) : GeneralSOSGame :=
  (GeneralSOSGame.make_move { g with current_turn := mv.player }
    mv.r mv.c mv.letter.str).2

/-- Replay a move history in order through the general make_move. -/
def replayG (g : GeneralSOSGame) (ms : List MoveRec) : GeneralSOSGame :=
  ms.foldl replayStepG g

/-- The effect of the export-import round trip on one history entry: the
sos quadruples come back as tuples. -/
def tupleizeRec (m : MoveRec) : MoveRec :=
  { m with sos := m.sos.map (fun s => PySeq4.pytuple s.quad) }

/-- Number of occupied cells of a grid. -/
def countFilled {α : Type} (b : Grid α) : Nat :=
  (b.map (fun row => row.countP (fun x => x.isSome))).sum

/-- Every cell of the grid is occupied. -/
def allCellsFilled {α : Type} (b : Grid α) : Bool :=
  b.all (fun row => row.all (fun x => x.isSome))

/-- A grid is an n-by-n list of rows. -/
def gridWF {α : Type} (n : Int) (b : Grid α) : Prop :=
  b.length = n.toNat ∧ ∀ row ∈ b, row.length = n.toNat

/-- The structural invariant every engine-built state satisfies: the size is
at least 3, the grids really have that shape, and the move counter counts
both the history entries and the occupied cells. -/
def BaseSOSGame.wf (g : BaseSOSGame) : Prop :=
  3 ≤ g.board_size ∧ gridWF g.board_size g.board
    ∧ gridWF g.board_size g.owner_board
    ∧ g.move_count = g.move_history.length
    ∧ g.move_count = countFilled g.board

/-! Concrete states used by the claim witnesses and counterexamples. -/

/-- A finished 3-by-3 simple game: blue S(0,0), red O(0,1), blue S(0,2)
completes S-O-S and wins. -/
def gameWon : SimpleSOSGame :=
  playS (SimpleSOSGame.create 3) [(0, 0, "S"), (0, 1, "O"), (0, 2, "S")]

/-- The middle-O scenario: blue S(0,0), red S(0,2), then blue places the O
at (0,1) that completes the row. -/
def gameMiddleO : SimpleSOSGame :=
  playS (SimpleSOSGame.create 3) [(0, 0, "S"), (0, 2, "S"), (0, 1, "O")]

/-- Two opening moves of a 3-by-3 simple game. -/
def gameTwo : SimpleSOSGame :=
  playS (SimpleSOSGame.create 3) [(0, 0, "S"), (0, 1, "O")]

/-- Two opening moves of a 3-by-3 general game. -/
def gameTwoG : GeneralSOSGame :=
  playG (GeneralSOSGame.create 3) [(0, 0, "S"), (0, 1, "O")]

/-- One opening move of a 3-by-3 simple game. -/
def gameOne : SimpleSOSGame :=
  playS (SimpleSOSGame.create 3) [(0, 0, "S")]

/-- One opening move of a 3-by-3 general game. -/
def gameOneG : GeneralSOSGame :=
  playG (GeneralSOSGame.create 3) [(0, 0, "S")]

/-- A finished 3-by-3 general game: nine S placements fill the board with
no sos line ever formed. -/
def gameFullG : GeneralSOSGame :=
  playG (GeneralSOSGame.create 3)
    [(0, 0, "S"), (0, 1, "S"), (0, 2, "S"), (1, 0, "S"), (1, 1, "S"),
     (1, 2, "S"), (2, 0, "S"), (2, 1, "S"), (2, 2, "S")]

/-- A payload declaring board size 5 with an empty history. -/
def payload5 : Payload :=
  { board_size := some 5, move_history := some [], mode := none,
    winner := none, scores := none }

/-- The base state of the finished game with a junk row appended below the
real grid: it agrees with the original on every in-bounds cell. -/
def paddedWon : BaseSOSGame :=
  { gameWon.toBaseSOSGame with
    board := gameWon.toBaseSOSGame.board
      ++ [[some Letter.S, some Letter.S, some Letter.S]] }

/-! Helper lemmas. -/

/-- Normalizing the stored string of a letter gives back the letter. -/
theorem normLetter_str (L : Letter) : normLetter (Letter.str L) = some L := by
  cases L <;> rfl

/-- Rewriting the turn pointer to its own value changes nothing. -/
theorem simple_set_turn_self (g : SimpleSOSGame) :
    ({ g with current_turn := g.current_turn } : SimpleSOSGame) = g := rfl

/-- Rewriting the turn pointer to its own value changes nothing. -/
theorem general_set_turn_self (g : GeneralSOSGame) :
    ({ g with current_turn := g.current_turn } : GeneralSOSGame) = g := rfl

/-- Success characterization of the simple make_move. -/
theorem makeMoveS_success {g : SimpleSOSGame} {r c : Int} {s : String}
    {g' : SimpleSOSGame} (h : SimpleSOSGame.make_move g r c s = (true, g')) :
    g.game_over = false ∧ ∃ L, normLetter s = some L ∧
      g.toBaseSOSGame.cell_empty r c = true ∧ g' = g.applyMove r c L := by
  unfold SimpleSOSGame.make_move at h
  by_cases hgo : g.game_over
  · simp [hgo] at h
  · simp only [hgo, if_false, Bool.false_eq_true] at h
    rcases hn : normLetter s with _ | L <;> rw [hn] at h
    · simp at h
    · by_cases hce : g.toBaseSOSGame.cell_empty r c
      · simp only [hce, if_true] at h
        exact ⟨by simp [hgo], L, rfl, by simp [hce], by simp [Prod.ext_iff] at h; exact h.symm⟩
      · simp [hce] at h

/-- Failure characterization of the simple make_move: every rejection
returns false with the state unchanged. -/
theorem makeMoveS_fail {g : SimpleSOSGame} {r c : Int} {s : String}
    (h : g.game_over = true ∨ normLetter s = none ∨
      g.toBaseSOSGame.cell_empty r c = false) :
    SimpleSOSGame.make_move g r c s = (false, g) := by
  unfold SimpleSOSGame.make_move
  rcases h with h | h | h
  · simp [h]
  · simp [h]
  · rcases hgo : g.game_over
    · simp only [Bool.false_eq_true, if_false]
      rcases hn : normLetter s with _ | L
      · rfl
      · simp [h]
    · simp

/-- A simple make_move that returns false leaves the state unchanged. -/
theorem makeMoveS_false_eq {g : SimpleSOSGame} {r c : Int} {s : String}
    {g' : SimpleSOSGame} (h : SimpleSOSGame.make_move g r c s = (false, g')) :
    g' = g := by
  unfold SimpleSOSGame.make_move at h
  by_cases hgo : g.game_over
  · simp [hgo] at h; exact h.symm
  · simp only [hgo, if_false, Bool.false_eq_true] at h
    rcases hn : normLetter s with _ | L <;> rw [hn] at h
    · simp at h; exact h.symm
    · by_cases hce : g.toBaseSOSGame.cell_empty r c
      · simp [hce] at h
      · simp [hce] at h; exact h.symm

/-- Success characterization of the general make_move. -/
theorem makeMoveG_success {g : GeneralSOSGame} {r c : Int} {s : String}
    {g' : GeneralSOSGame} (h : GeneralSOSGame.make_move g r c s = (true, g')) :
    g.game_over = false ∧ ∃ L, normLetter s = some L ∧
      g.toBaseSOSGame.cell_empty r c = true ∧ g' = g.applyMove r c L := by
  unfold GeneralSOSGame.make_move at h
  by_cases hgo : g.game_over
  · simp [hgo] at h
  · simp only [hgo, if_false, Bool.false_eq_true] at h
    rcases hn : normLetter s with _ | L <;> rw [hn] at h
    · simp at h
    · by_cases hce : g.toBaseSOSGame.cell_empty r c
      · simp only [hce, if_true] at h
        exact ⟨by simp [hgo], L, rfl, by simp [hce], by simp [Prod.ext_iff] at h; exact h.symm⟩
      · simp [hce] at h

/-- Failure characterization of the general make_move. -/
theorem makeMoveG_fail {g : GeneralSOSGame} {r c : Int} {s : String}
    (h : g.game_over = true ∨ normLetter s = none ∨
      g.toBaseSOSGame.cell_empty r c = false) :
    GeneralSOSGame.make_move g r c s = (false, g) := by
  unfold GeneralSOSGame.make_move
  rcases h with h | h | h
  · simp [h]
  · simp [h]
  · rcases hgo : g.game_over
    · simp only [Bool.false_eq_true, if_false]
      rcases hn : normLetter s with _ | L
      · rfl
      · simp [h]
    · simp

/-- A general make_move that returns false leaves the state unchanged. -/
theorem makeMoveG_false_eq {g : GeneralSOSGame} {r c : Int} {s : String}
    {g' : GeneralSOSGame} (h : GeneralSOSGame.make_move g r c s = (false, g')) :
    g' = g := by
  unfold GeneralSOSGame.make_move at h
  by_cases hgo : g.game_over
  · simp [hgo] at h; exact h.symm
  · simp only [hgo, if_false, Bool.false_eq_true] at h
    rcases hn : normLetter s with _ | L <;> rw [hn] at h
    · simp at h; exact h.symm
    · by_cases hce : g.toBaseSOSGame.cell_empty r c
      · simp [hce] at h
      · simp [hce] at h; exact h.symm

/-! Projections of the simple applyMove. -/

theorem AS_board (g : SimpleSOSGame) (r c : Int) (L : Letter) :
    (g.applyMove r c L).board = gridSet g.board r c (some L) := by
  simp only [SimpleSOSGame.applyMove]
  split
  · split <;> rfl
  · rfl

theorem AS_owner (g : SimpleSOSGame) (r c : Int) (L : Letter) :
    (g.applyMove r c L).owner_board
      = gridSet g.owner_board r c (some g.current_turn) := by
  simp only [SimpleSOSGame.applyMove]
  split
  · split <;> rfl
  · rfl

theorem AS_size (g : SimpleSOSGame) (r c : Int) (L : Letter) :
    (g.applyMove r c L).board_size = g.board_size := by
  simp only [SimpleSOSGame.applyMove]
  split
  · split <;> rfl
  · rfl

theorem AS_count (g : SimpleSOSGame) (r c : Int) (L : Letter) :
    (g.applyMove r c L).move_count = g.move_count + 1 := by
  simp only [SimpleSOSGame.applyMove]
  split
  · split <;> rfl
  · rfl

theorem AS_hist (g : SimpleSOSGame) (r c : Int) (L : Letter) :
    (g.applyMove r c L).move_history = g.move_history
      ++ [BaseSOSGame.mkRec g.current_turn r c L (g.sosFound r c L)] := by
  simp only [SimpleSOSGame.applyMove]
  split
  · split <;> rfl
  · rfl

theorem AS_last (g : SimpleSOSGame) (r c : Int) (L : Letter) :
    (g.applyMove r c L).last_sos_lines = g.sosFound r c L := by
  simp only [SimpleSOSGame.applyMove]
  split
  · split <;> rfl
  · rfl

theorem AS_lastp (g : SimpleSOSGame) (r c : Int) (L : Letter) :
    (g.applyMove r c L).last_move_player = some g.current_turn := by
  simp only [SimpleSOSGame.applyMove]
  split
  · split <;> rfl
  · rfl

theorem AS_winner (g : SimpleSOSGame) (r c : Int) (L : Letter) :
    (g.applyMove r c L).winner
      = if (g.sosFound r c L).isEmpty then g.winner else some g.current_turn := by
  simp only [SimpleSOSGame.applyMove]
  split
  · split <;> rfl
  · rfl

theorem AS_turn (g : SimpleSOSGame) (r c : Int) (L : Letter) :
    (g.applyMove r c L).current_turn
      = if (g.sosFound r c L).isEmpty then togglePlayer g.current_turn
        else g.current_turn := by
  simp only [SimpleSOSGame.applyMove]
  split
  · split <;> rfl
  · rfl

theorem AS_over (g : SimpleSOSGame) (r c : Int) (L : Letter) :
    (g.applyMove r c L).game_over
      = if (g.sosFound r c L).isEmpty then
          (decide (g.board_size * g.board_size ≤ ((g.move_count + 1 : Nat) : Int))
            || g.game_over)
        else true := by
  simp only [SimpleSOSGame.applyMove]
  split
  · split <;> rename_i hF
    · have hF2 : decide (g.board_size * g.board_size
          ≤ ((g.move_count + 1 : Nat) : Int)) = true := hF
      have hP := of_decide_eq_true hF2
      push_cast at hP
      simp [hP, SimpleSOSGame.placed]
    · simp only [Bool.not_eq_true] at hF
      have hF2 : decide (g.board_size * g.board_size
          ≤ ((g.move_count + 1 : Nat) : Int)) = false := hF
      have hP := of_decide_eq_false hF2
      push_cast at hP
      simp [hP, SimpleSOSGame.placed]
  · rfl

/-! Projections of the general applyMove. -/

theorem AG_board (g : GeneralSOSGame) (r c : Int) (L : Letter) :
    (g.applyMove r c L).board = gridSet g.board r c (some L) := by
  simp only [GeneralSOSGame.applyMove]
  split <;> rfl

theorem AG_owner (g : GeneralSOSGame) (r c : Int) (L : Letter) :
    (g.applyMove r c L).owner_board
      = gridSet g.owner_board r c (some g.current_turn) := by
  simp only [GeneralSOSGame.applyMove]
  split <;> rfl

theorem AG_size (g : GeneralSOSGame) (r c : Int) (L : Letter) :
    (g.applyMove r c L).board_size = g.board_size := by
  simp only [GeneralSOSGame.applyMove]
  split <;> rfl

theorem AG_count (g : GeneralSOSGame) (r c : Int) (L : Letter) :
    (g.applyMove r c L).move_count = g.move_count + 1 := by
  simp only [GeneralSOSGame.applyMove]
  split <;> rfl

theorem AG_hist (g : GeneralSOSGame) (r c : Int) (L : Letter) :
    (g.applyMove r c L).move_history = g.move_history
      ++ [BaseSOSGame.mkRec g.current_turn r c L (g.sosFound r c L)] := by
  simp only [GeneralSOSGame.applyMove]
  split <;> rfl

theorem AG_last (g : GeneralSOSGame) (r c : Int) (L : Letter) :
    (g.applyMove r c L).last_sos_lines = g.sosFound r c L := by
  simp only [GeneralSOSGame.applyMove]
  split <;> rfl

theorem AG_lastp (g : GeneralSOSGame) (r c : Int) (L : Letter) :
    (g.applyMove r c L).last_move_player = some g.current_turn := by
  simp only [GeneralSOSGame.applyMove]
  split <;> rfl

theorem AG_scores (g : GeneralSOSGame) (r c : Int) (L : Letter) :
    (g.applyMove r c L).scores
      = if (g.sosFound r c L).isEmpty then g.scores
        else g.scores.add g.current_turn (g.sosFound r c L).length := by
  simp only [GeneralSOSGame.applyMove]
  split <;> rfl

theorem AG_turn (g : GeneralSOSGame) (r c : Int) (L : Letter) :
    (g.applyMove r c L).current_turn = togglePlayer g.current_turn := by
  simp only [GeneralSOSGame.applyMove]
  split <;> rfl

theorem AG_over (g : GeneralSOSGame) (r c : Int) (L : Letter) :
    (g.applyMove r c L).game_over
      = (decide (g.board_size * g.board_size ≤ ((g.move_count + 1 : Nat) : Int))
          || g.game_over) := by
  simp only [GeneralSOSGame.applyMove]
  split <;> rename_i hF
  · have hF2 : g.board_size * g.board_size ≤ ((g.move_count + 1 : Nat) : Int) := hF
    push_cast at hF2
    simp [hF2, GeneralSOSGame.placed]
  · have hF2 : ¬ g.board_size * g.board_size ≤ ((g.move_count + 1 : Nat) : Int) := hF
    push_cast at hF2
    simp [hF2, GeneralSOSGame.placed]


/-! Grid access lemmas. -/

/-- gridGet only looks at the toNat images of its indices. -/
theorem gridGet_congr {α : Type} (b : Grid α) {r c r' c' : Int}
    (hr : r.toNat = r'.toNat) (hc : c.toNat = c'.toNat) :
    gridGet b r c = gridGet b r' c' := by
  unfold gridGet
  rw [hr, hc]

/-- A row read off a list by getElem is a member of it. -/
theorem mem_of_getElem_opt {α : Type} {l : List α} {n : Nat} {a : α}
    (h : l[n]? = some a) : a ∈ l := by
  rw [List.getElem?_eq_some_iff] at h
  obtain ⟨hlt, rfl⟩ := h
  exact List.getElem_mem hlt

/-- Writing one cell leaves every other cell unchanged. -/
theorem gridGet_gridSet_ne {α : Type} (b : Grid α) {r c r' c' : Int}
    (v : Option α) (hne : ¬(r.toNat = r'.toNat ∧ c.toNat = c'.toNat)) :
    gridGet (gridSet b r c v) r' c' = gridGet b r' c' := by
  unfold gridGet gridSet
  by_cases hr : r.toNat = r'.toNat
  · have hc : c.toNat ≠ c'.toNat := fun h => hne ⟨hr, h⟩
    rw [hr]
    by_cases hlt : r'.toNat < b.length
    · rw [List.getElem?_set_self hlt]
      rcases hrow : b[r'.toNat]? with _ | row
      · rw [List.getElem?_eq_none_iff] at hrow
        omega
      · simp only [hrow, Option.getD_some]
        rw [List.getElem?_set_ne hc]
    · rw [List.set_eq_of_length_le (by omega)]
  · rw [List.getElem?_set_ne hr]

/-- Writing a cell of a well-formed grid at in-bounds indices stores the
value. -/
theorem gridGet_gridSet_self {α : Type} {n : Int} {b : Grid α}
    (hwf : gridWF n b) {r c : Int} (hr : r.toNat < n.toNat)
    (hc : c.toNat < n.toNat) (v : Option α) :
    gridGet (gridSet b r c v) r c = v := by
  obtain ⟨hlen, hrows⟩ := hwf
  obtain ⟨row, hrow⟩ : ∃ row, b[r.toNat]? = some row := by
    rcases h : b[r.toNat]? with _ | row
    · rw [List.getElem?_eq_none_iff] at h
      omega
    · exact ⟨row, rfl⟩
  have hrl : row.length = n.toNat := hrows row (mem_of_getElem_opt hrow)
  unfold gridGet gridSet
  rw [hrow]
  simp only [Option.getD_some]
  rw [List.getElem?_set_self (by omega)]
  simp only [Option.getD_some]
  rw [List.getElem?_set_self (by omega)]
  rfl

/-- gridSet at in-bounds indices preserves grid shape. -/
theorem gridWF_gridSet {α : Type} {n : Int} {b : Grid α} (hwf : gridWF n b)
    {r c : Int} (hr : r.toNat < n.toNat) (v : Option α) :
    gridWF n (gridSet b r c v) := by
  obtain ⟨hlen, hrows⟩ := hwf
  obtain ⟨row, hrow⟩ : ∃ row, b[r.toNat]? = some row := by
    rcases h : b[r.toNat]? with _ | row
    · rw [List.getElem?_eq_none_iff] at h
      omega
    · exact ⟨row, rfl⟩
  constructor
  · rw [gridSet, List.length_set]; exact hlen
  · intro row' hrow'
    rcases List.mem_or_eq_of_mem_set hrow' with h | h
    · exact hrows row' h
    · subst h
      rw [hrow]
      simp only [Option.getD_some]
      rw [List.length_set]
      exact hrows row (mem_of_getElem_opt hrow)

/-- in_bounds gives the toNat index facts the grid lemmas need. -/
theorem in_bounds_toNat {g : BaseSOSGame} {r c : Int}
    (h : g.in_bounds r c = true) :
    r.toNat < g.board_size.toNat ∧ c.toNat < g.board_size.toNat := by
  have := of_decide_eq_true h
  omega

/-- cell_empty gives in_bounds and an empty raw read. -/
theorem cell_empty_elim {g : BaseSOSGame} {r c : Int}
    (h : g.cell_empty r c = true) :
    g.in_bounds r c = true ∧ gridGet g.board r c = none := by
  unfold BaseSOSGame.cell_empty at h
  rw [Bool.and_eq_true] at h
  exact ⟨h.1, Option.isNone_iff_eq_none.mp h.2⟩


/-! Play and replay unfolding lemmas. -/

theorem playS_append_singleton (g : SimpleSOSGame) (ms : List MoveIn) (m : MoveIn) :
    playS g (ms ++ [m])
      = (SimpleSOSGame.make_move (playS g ms) m.1 m.2.1 m.2.2).2 := by
  unfold playS
  rw [List.foldl_append]
  rfl

theorem playG_append_singleton (g : GeneralSOSGame) (ms : List MoveIn) (m : MoveIn) :
    playG g (ms ++ [m])
      = (GeneralSOSGame.make_move (playG g ms) m.1 m.2.1 m.2.2).2 := by
  unfold playG
  rw [List.foldl_append]
  rfl

theorem replayS_append_singleton (g : SimpleSOSGame) (h : List MoveRec)
    (mv : MoveRec) : replayS g (h ++ [mv]) = replayStepS (replayS g h) mv := by
  unfold replayS
  rw [List.foldl_append]
  rfl

theorem replayG_append_singleton (g : GeneralSOSGame) (h : List MoveRec)
    (mv : MoveRec) : replayG g (h ++ [mv]) = replayStepG (replayG g h) mv := by
  unfold replayG
  rw [List.foldl_append]
  rfl

/-- After the game is over, any sequence of simple moves is a no-op. -/
theorem playS_game_over {g : SimpleSOSGame} (h : g.game_over = true) :
    ∀ ms : List MoveIn, playS g ms = g := by
  intro ms
  induction ms with
  | nil => rfl
  | cons m ms ih =>
    show playS (SimpleSOSGame.make_move g m.1 m.2.1 m.2.2).2 ms = g
    rw [makeMoveS_fail (Or.inl h)]
    exact ih

/-- After the game is over, any sequence of general moves is a no-op. -/
theorem playG_game_over {g : GeneralSOSGame} (h : g.game_over = true) :
    ∀ ms : List MoveIn, playG g ms = g := by
  intro ms
  induction ms with
  | nil => rfl
  | cons m ms ih =>
    show playG (GeneralSOSGame.make_move g m.1 m.2.1 m.2.2).2 ms = g
    rw [makeMoveG_fail (Or.inl h)]
    exact ih

/-! Score lemmas. -/

theorem scores_add_get_self (s : Scores) (p : Player) (k : Int) :
    (s.add p k).get p = s.get p + k := by
  cases p <;> rfl

theorem scores_add_get_other (s : Scores) (p : Player) (k : Int) :
    (s.add p k).get (togglePlayer p) = s.get (togglePlayer p) := by
  cases p <;> rfl

theorem scores_get_le_add (s : Scores) (p q : Player) (k : Int) (hk : 0 ≤ k) :
    s.get q ≤ (s.add p k).get q := by
  cases p <;> cases q <;> simp [Scores.add, Scores.get] <;> omega

/-- One general move never lowers any score. -/
theorem scoresG_step_le (g : GeneralSOSGame) (m : MoveIn) (p : Player) :
    g.scores.get p
      ≤ ((GeneralSOSGame.make_move g m.1 m.2.1 m.2.2).2).scores.get p := by
  rcases hmm : GeneralSOSGame.make_move g m.1 m.2.1 m.2.2 with ⟨b, g2⟩
  cases b
  · rw [makeMoveG_false_eq hmm]
  · obtain ⟨hgo, L, hnl, hce, rfl⟩ := makeMoveG_success hmm
    rw [AG_scores]
    split
    · exact le_refl _
    · exact scores_get_le_add _ _ _ _ (Int.natCast_nonneg _)

/-- A whole play never lowers any score. -/
theorem scoresG_play_le (g : GeneralSOSGame) (ms : List MoveIn) (p : Player) :
    g.scores.get p ≤ (playG g ms).scores.get p := by
  induction ms generalizing g with
  | nil => exact le_refl _
  | cons m ms ih => exact le_trans (scoresG_step_le g m p) (ih _)

/-! Cell preservation lemmas. -/

/-- in_bounds is unchanged by the simple mutation block. -/
theorem in_bounds_applyMove_S (g : SimpleSOSGame) (r c : Int) (L : Letter)
    (a b : Int) : (g.applyMove r c L).toBaseSOSGame.in_bounds a b
      = g.toBaseSOSGame.in_bounds a b := by
  unfold BaseSOSGame.in_bounds
  rw [AS_size]

/-- in_bounds is unchanged by the general mutation block. -/
theorem in_bounds_applyMove_G (g : GeneralSOSGame) (r c : Int) (L : Letter)
    (a b : Int) : (g.applyMove r c L).toBaseSOSGame.in_bounds a b
      = g.toBaseSOSGame.in_bounds a b := by
  unfold BaseSOSGame.in_bounds
  rw [AG_size]

/-- An occupied cell is reported non-empty. -/
theorem cell_not_empty_of_get {g : BaseSOSGame} {r c : Int} {L : Letter}
    (h : g.get_cell r c = some L) : g.cell_empty r c = false := by
  unfold BaseSOSGame.get_cell at h
  unfold BaseSOSGame.cell_empty
  split at h <;> rename_i hib
  · simp [hib, h]
  · cases h

/-- One simple move preserves every occupied cell. -/
theorem get_cell_step_S (g : SimpleSOSGame) (m : MoveIn) {r' c' : Int}
    {L : Letter} (h : g.toBaseSOSGame.get_cell r' c' = some L) :
    ((SimpleSOSGame.make_move g m.1 m.2.1 m.2.2).2).toBaseSOSGame.get_cell r' c'
      = some L := by
  rcases hmm : SimpleSOSGame.make_move g m.1 m.2.1 m.2.2 with ⟨b, g2⟩
  cases b
  · rw [makeMoveS_false_eq hmm]; exact h
  · obtain ⟨hgo, L0, hnl, hce, rfl⟩ := makeMoveS_success hmm
    obtain ⟨hib, hemp⟩ := cell_empty_elim hce
    unfold BaseSOSGame.get_cell at h ⊢
    rw [in_bounds_applyMove_S]
    split at h <;> rename_i hib'
    · rw [if_pos hib', AS_board, gridGet_gridSet_ne]
      · exact h
      · rintro ⟨h1, h2⟩
        rw [gridGet_congr g.board h1 h2, h] at hemp
        cases hemp
    · cases h

/-- One general move preserves every occupied cell. -/
theorem get_cell_step_G (g : GeneralSOSGame) (m : MoveIn) {r' c' : Int}
    {L : Letter} (h : g.toBaseSOSGame.get_cell r' c' = some L) :
    ((GeneralSOSGame.make_move g m.1 m.2.1 m.2.2).2).toBaseSOSGame.get_cell r' c'
      = some L := by
  rcases hmm : GeneralSOSGame.make_move g m.1 m.2.1 m.2.2 with ⟨b, g2⟩
  cases b
  · rw [makeMoveG_false_eq hmm]; exact h
  · obtain ⟨hgo, L0, hnl, hce, rfl⟩ := makeMoveG_success hmm
    obtain ⟨hib, hemp⟩ := cell_empty_elim hce
    unfold BaseSOSGame.get_cell at h ⊢
    rw [in_bounds_applyMove_G]
    split at h <;> rename_i hib'
    · rw [if_pos hib', AG_board, gridGet_gridSet_ne]
      · exact h
      · rintro ⟨h1, h2⟩
        rw [gridGet_congr g.board h1 h2, h] at hemp
        cases hemp
    · cases h

/-- A whole simple play preserves every occupied cell. -/
theorem get_cell_play_S (g : SimpleSOSGame) (ms : List MoveIn) {r' c' : Int}
    {L : Letter} (h : g.toBaseSOSGame.get_cell r' c' = some L) :
    (playS g ms).toBaseSOSGame.get_cell r' c' = some L := by
  induction ms generalizing g with
  | nil => exact h
  | cons m ms ih => exact ih _ (get_cell_step_S g m h)

/-- A whole general play preserves every occupied cell. -/
theorem get_cell_play_G (g : GeneralSOSGame) (ms : List MoveIn) {r' c' : Int}
    {L : Letter} (h : g.toBaseSOSGame.get_cell r' c' = some L) :
    (playG g ms).toBaseSOSGame.get_cell r' c' = some L := by
  induction ms generalizing g with
  | nil => exact h
  | cons m ms ih => exact ih _ (get_cell_step_G g m h)


/-! Claim theorems. -/

/-- C1: detection completeness fails on the code. In the middle-O scenario
all three placements are legal (the move counter reaches 3), the final
board holds a literal S-O-S across row 0 (form_sos at its S endpoint is
true), yet check_for_sos at the just-placed middle O returns the empty
list, so the move records no sos lines, no winner is declared and the game
continues: the line completed by placing its middle O is not detected. -/
theorem C1_sos_detection_misses_middle_O :
    gameMiddleO.move_count = 3 ∧
    gameMiddleO.toBaseSOSGame.form_sos 0 0 0 1 = true ∧
    gameMiddleO.toBaseSOSGame.check_for_sos 0 1 = [] ∧
    gameMiddleO.last_sos_lines = [] ∧
    gameMiddleO.winner = none ∧
    gameMiddleO.game_over = false := by decide

/-- C6: import_record does not leave the instance in the state of a fresh
game of the declared board size. Importing a payload that declares size 5
into a 3-by-3 instance sets the board_size field to 5 but rebuilds both
grids with the old size 3; the other parts of the claim (empty cells,
zero move counter, not game over, history loaded from the payload) do
hold. -/
theorem C6_import_keeps_old_grid_size :
    ((SimpleSOSGame.create 3).import_record payload5).board_size = 5 ∧
    ((SimpleSOSGame.create 3).import_record payload5).board.length = 3 ∧
    ((SimpleSOSGame.create 3).import_record payload5).owner_board.length = 3 ∧
    ((SimpleSOSGame.create 3).import_record payload5).move_count = 0 ∧
    ((SimpleSOSGame.create 3).import_record payload5).game_over = false ∧
    ((SimpleSOSGame.create 3).import_record payload5).move_history = [] := by
  decide

/-- C9: in either mode, creation with a requested size n clamps the board
size to max 3 n, builds board and ownership grids of exactly that many
rows and columns with every cell empty, zeroes the move counter, hands the
turn to blue, and starts with the game not over (and winner none, zero
scores). -/
theorem C9_creation_clamp (n : Int) :
    (SimpleSOSGame.create n).board_size = max 3 n ∧
    3 ≤ (SimpleSOSGame.create n).board_size ∧
    (SimpleSOSGame.create n).board.length = (max 3 n).toNat ∧
    (∀ row ∈ (SimpleSOSGame.create n).board,
      row.length = (max 3 n).toNat ∧ ∀ x ∈ row, x = none) ∧
    (SimpleSOSGame.create n).owner_board.length = (max 3 n).toNat ∧
    (∀ row ∈ (SimpleSOSGame.create n).owner_board,
      row.length = (max 3 n).toNat ∧ ∀ x ∈ row, x = none) ∧
    (SimpleSOSGame.create n).move_count = 0 ∧
    (SimpleSOSGame.create n).current_turn = Player.blue ∧
    (SimpleSOSGame.create n).game_over = false ∧
    (SimpleSOSGame.create n).winner = none ∧
    (GeneralSOSGame.create n).board_size = max 3 n ∧
    (GeneralSOSGame.create n).board.length = (max 3 n).toNat ∧
    (∀ row ∈ (GeneralSOSGame.create n).board,
      row.length = (max 3 n).toNat ∧ ∀ x ∈ row, x = none) ∧
    (GeneralSOSGame.create n).owner_board.length = (max 3 n).toNat ∧
    (∀ row ∈ (GeneralSOSGame.create n).owner_board,
      row.length = (max 3 n).toNat ∧ ∀ x ∈ row, x = none) ∧
    (GeneralSOSGame.create n).move_count = 0 ∧
    (GeneralSOSGame.create n).current_turn = Player.blue ∧
    (GeneralSOSGame.create n).game_over = false ∧
    (GeneralSOSGame.create n).scores = { blue := 0, red := 0 } := by
  have hrow : ∀ (α : Type) (row : List (Option α)),
      row ∈ mkGrid α (max 3 n) →
      row.length = (max 3 n).toNat ∧ ∀ x ∈ row, x = none := by
    intro α row hr
    rw [mkGrid] at hr
    rw [List.eq_of_mem_replicate hr]
    refine ⟨List.length_replicate _ _, ?_⟩
    intro x hx
    exact List.eq_of_mem_replicate hx
  have hlen : ∀ (α : Type), (mkGrid α (max 3 n)).length = (max 3 n).toNat := by
    intro α
    rw [mkGrid]
    exact List.length_replicate _ _
  refine ⟨rfl, le_max_left _ _, hlen Letter, hrow Letter,
    hlen Player, hrow Player, rfl, rfl, rfl, rfl,
    rfl, hlen Letter, hrow Letter,
    hlen Player, hrow Player, rfl, rfl, rfl, rfl⟩


/-- C2: on every legal simple move, the acting player is the turn pointer
captured before mutation; when the placement formed at least one sos line
that player becomes the winner and the game ends immediately with the turn
pointer not toggled; when it formed none the pointer toggles, the winner
field is untouched, and the game ends (as a draw) exactly when the board
is then full. -/
theorem C2_simple_mode_postcondition (g : SimpleSOSGame) (r c : Int)
    (s : String) (g' : SimpleSOSGame)
    (h : SimpleSOSGame.make_move g r c s = (true, g')) :
    g'.last_move_player = some g.current_turn ∧
    g'.winner = (if g'.last_sos_lines.isEmpty then g.winner
      else some g.current_turn) ∧
    g'.current_turn = (if g'.last_sos_lines.isEmpty then togglePlayer g.current_turn
      else g.current_turn) ∧
    g'.game_over = (if g'.last_sos_lines.isEmpty then g'.toBaseSOSGame.is_board_full
      else true) := by
  obtain ⟨hgo, L, hnl, hce, rfl⟩ := makeMoveS_success h
  refine ⟨AS_lastp g r c L, ?_, ?_, ?_⟩
  · rw [AS_winner, AS_last]
  · rw [AS_turn, AS_last]
  · rw [AS_over, AS_last]
    have hfull : (g.applyMove r c L).toBaseSOSGame.is_board_full
        = decide (g.board_size * g.board_size
            ≤ ((g.move_count + 1 : Nat) : Int)) := by
      unfold BaseSOSGame.is_board_full
      rw [AS_size, AS_count]
    rw [hfull, hgo, Bool.or_false]

/-- Witness for C2 at the concrete winning third move of a 3-by-3 game. -/
theorem C2_simple_mode_postcondition_witness :
    gameWon.last_move_player = some gameTwo.current_turn ∧
    gameWon.winner = (if gameWon.last_sos_lines.isEmpty then gameTwo.winner
      else some gameTwo.current_turn) ∧
    gameWon.current_turn = (if gameWon.last_sos_lines.isEmpty then togglePlayer gameTwo.current_turn
      else gameTwo.current_turn) ∧
    gameWon.game_over = (if gameWon.last_sos_lines.isEmpty then gameWon.toBaseSOSGame.is_board_full
      else true) :=
  C2_simple_mode_postcondition gameTwo 0 2 ("S") gameWon (by decide)

/-- C3: on every legal general move, the acting player score rises by
exactly the number of sos lines formed and the other player score is
unchanged, the turn pointer toggles unconditionally, the game is over
exactly when the board is full after the move, and a score never
decreases over any sequence of moves. -/
theorem C3_general_mode_postcondition (g : GeneralSOSGame) (r c : Int)
    (s : String) (g' : GeneralSOSGame)
    (h : GeneralSOSGame.make_move g r c s = (true, g'))
    (g0 : GeneralSOSGame) (ms : List MoveIn) (p : Player) :
    g'.scores.get g.current_turn
      = g.scores.get g.current_turn + g'.last_sos_lines.length ∧
    g'.scores.get (togglePlayer g.current_turn)
      = g.scores.get (togglePlayer g.current_turn) ∧
    g'.current_turn = togglePlayer g.current_turn ∧
    g'.game_over = g'.toBaseSOSGame.is_board_full ∧
    g0.scores.get p ≤ (playG g0 ms).scores.get p := by
  obtain ⟨hgo, L, hnl, hce, rfl⟩ := makeMoveG_success h
  refine ⟨?_, ?_, AG_turn g r c L, ?_, scoresG_play_le g0 ms p⟩
  · rw [AG_scores, AG_last]
    split <;> rename_i hE
    · rw [List.isEmpty_iff.mp hE]
      simp
    · rw [scores_add_get_self]
  · rw [AG_scores]
    split
    · rfl
    · rw [scores_add_get_other]
  · rw [AG_over]
    have hfull : (g.applyMove r c L).toBaseSOSGame.is_board_full
        = decide (g.board_size * g.board_size
            ≤ ((g.move_count + 1 : Nat) : Int)) := by
      unfold BaseSOSGame.is_board_full
      rw [AG_size, AG_count]
    rw [hfull, hgo, Bool.or_false]

/-- Witness for C3 at the concrete scoring third move of a 3-by-3 general
game, with the monotonicity part instantiated over two further moves. -/
theorem C3_general_mode_postcondition_witness :
    (GeneralSOSGame.make_move gameTwoG 0 2 ("S")).2.scores.get gameTwoG.current_turn
      = gameTwoG.scores.get gameTwoG.current_turn
        + (GeneralSOSGame.make_move gameTwoG 0 2 ("S")).2.last_sos_lines.length ∧
    (GeneralSOSGame.make_move gameTwoG 0 2 ("S")).2.scores.get (togglePlayer gameTwoG.current_turn)
      = gameTwoG.scores.get (togglePlayer gameTwoG.current_turn) ∧
    (GeneralSOSGame.make_move gameTwoG 0 2 ("S")).2.current_turn = togglePlayer gameTwoG.current_turn ∧
    (GeneralSOSGame.make_move gameTwoG 0 2 ("S")).2.game_over
      = (GeneralSOSGame.make_move gameTwoG 0 2 ("S")).2.toBaseSOSGame.is_board_full ∧
    gameOneG.scores.get Player.blue
      ≤ (playG gameOneG [(0, 1, "O"), (0, 2, "S")]).scores.get Player.blue :=
  C3_general_mode_postcondition gameTwoG 0 2 ("S")
    (GeneralSOSGame.make_move gameTwoG 0 2 ("S")).2 (by decide)
    gameOneG [(0, 1, "O"), (0, 2, "S")] Player.blue

/-- C4: in both modes make_move returns false and leaves the whole state
unchanged when the game is already over, the normalized letter is invalid,
or the target cell is out of bounds or occupied; in particular once the
game is over every further sequence of calls is a no-op. -/
theorem C4_rejection_no_side_effects
    (gs : SimpleSOSGame) (rs cs : Int) (ss : String)
    (hs : gs.game_over = true ∨ normLetter ss = none ∨
      gs.toBaseSOSGame.cell_empty rs cs = false)
    (gg : GeneralSOSGame) (rg cg : Int) (sg : String)
    (hg : gg.game_over = true ∨ normLetter sg = none ∨
      gg.toBaseSOSGame.cell_empty rg cg = false)
    (gs2 : SimpleSOSGame) (hs2 : gs2.game_over = true) (ms : List MoveIn)
    (gg2 : GeneralSOSGame) (hg2 : gg2.game_over = true) (mg : List MoveIn) :
    SimpleSOSGame.make_move gs rs cs ss = (false, gs) ∧
    GeneralSOSGame.make_move gg rg cg sg = (false, gg) ∧
    playS gs2 ms = gs2 ∧ playG gg2 mg = gg2 :=
  ⟨makeMoveS_fail hs, makeMoveG_fail hg,
    playS_game_over hs2 ms, playG_game_over hg2 mg⟩

/-- Witness for C4: a move into a finished simple game, an invalid letter
in a fresh general game, and further move sequences against both finished
games. -/
theorem C4_rejection_no_side_effects_witness :
    SimpleSOSGame.make_move gameWon 1 1 "S" = (false, gameWon) ∧
    GeneralSOSGame.make_move (GeneralSOSGame.create 3) 0 0 "X"
      = (false, GeneralSOSGame.create 3) ∧
    playS gameWon [(1, 1, "O")] = gameWon ∧
    playG gameFullG [(0, 0, "S")] = gameFullG :=
  C4_rejection_no_side_effects gameWon 1 1 ("S") (by decide)
    (GeneralSOSGame.create 3) 0 0 ("X") (by decide)
    gameWon (by decide) [(1, 1, "O")]
    gameFullG (by decide) [(0, 0, "S")]


/-! Counting and well-formedness lemmas. -/

theorem countFilled_cons {α : Type} (row : List (Option α)) (b : Grid α) :
    countFilled (row :: b)
      = row.countP (fun x => x.isSome) + countFilled b := by
  unfold countFilled
  rw [List.map_cons, List.sum_cons]

/-- Setting an empty slot of a row to an occupied value raises its count
by one. -/
theorem countP_set_some {α : Type} :
    ∀ (l : List (Option α)) (i : Nat) (v : α), l[i]? = some none →
    (l.set i (some v)).countP (fun x => x.isSome)
      = l.countP (fun x => x.isSome) + 1 := by
  intro l
  induction l with
  | nil =>
    intro i v h
    rw [List.getElem?_nil] at h
    cases h
  | cons x xs ih =>
    intro i v h
    cases i with
    | zero =>
      rw [List.getElem?_cons_zero] at h
      injection h with h
      subst h
      rw [List.set_cons_zero]
      simp [List.countP_cons]
    | succ n =>
      rw [List.getElem?_cons_succ] at h
      rw [List.set_cons_succ]
      rw [List.countP_cons, List.countP_cons, ih n v h]
      omega

/-- Replacing a row by one counting one more raises the grid count by
one. -/
theorem countFilled_set_row {α : Type} :
    ∀ (b : Grid α) (i : Nat) (row row' : List (Option α)),
    b[i]? = some row →
    row'.countP (fun x => x.isSome) = row.countP (fun x => x.isSome) + 1 →
    countFilled (b.set i row') = countFilled b + 1 := by
  intro b
  induction b with
  | nil =>
    intro i row row' h
    rw [List.getElem?_nil] at h
    cases h
  | cons x xs ih =>
    intro i row row' h hcount
    cases i with
    | zero =>
      rw [List.getElem?_cons_zero] at h
      injection h with h
      subst h
      rw [List.set_cons_zero, countFilled_cons, countFilled_cons, hcount]
      omega
    | succ n =>
      rw [List.getElem?_cons_succ] at h
      rw [List.set_cons_succ, countFilled_cons, countFilled_cons,
        ih n row row' h hcount]
      omega

/-- Reading a grid whose row at the target index is known. -/
theorem gridGet_row {α : Type} {b : Grid α} {r : Int} {row : List (Option α)}
    (h : b[r.toNat]? = some row) (c : Int) :
    gridGet b r c = (row[c.toNat]?).getD none := by
  unfold gridGet
  rw [h]

/-- Writing an empty in-bounds cell raises the occupied count by one. -/
theorem countFilled_gridSet {α : Type} {n : Int} {b : Grid α}
    (hwf : gridWF n b) {r c : Int} (hr : r.toNat < n.toNat)
    (hc : c.toNat < n.toNat) (hemp : gridGet b r c = none) (v : α) :
    countFilled (gridSet b r c (some v)) = countFilled b + 1 := by
  obtain ⟨hlen, hrows⟩ := hwf
  obtain ⟨row, hrow⟩ : ∃ row, b[r.toNat]? = some row := by
    rcases h : b[r.toNat]? with _ | row
    · rw [List.getElem?_eq_none_iff] at h
      omega
    · exact ⟨row, rfl⟩
  have hrl : row.length = n.toNat := hrows row (mem_of_getElem_opt hrow)
  rw [gridGet_row hrow c] at hemp
  have hslot : row[c.toNat]? = some none := by
    rcases h2 : row[c.toNat]? with _ | x
    · rw [List.getElem?_eq_none_iff] at h2
      omega
    · rw [h2] at hemp
      simp only [Option.getD_some] at hemp
      rw [hemp]
  unfold gridSet
  rw [hrow]
  simp only [Option.getD_some]
  exact countFilled_set_row b r.toNat row (row.set c.toNat (some v)) hrow
    (countP_set_some row c.toNat v hslot)

/-- A row of a freshly built grid is all empty of the right length. -/
theorem countP_replicate_none {α : Type} (k : Nat) :
    (List.replicate k (none : Option α)).countP (fun x => x.isSome) = 0 := by
  induction k with
  | zero => rfl
  | succ m ih =>
    rw [List.replicate_succ, List.countP_cons, ih]
    rfl

/-- A fresh grid has no occupied cell. -/
theorem countFilled_mkGrid (α : Type) (n : Int) :
    countFilled (mkGrid α n) = 0 := by
  unfold countFilled mkGrid
  rw [List.map_replicate, countP_replicate_none]
  induction n.toNat with
  | zero => rfl
  | succ m ih =>
    rw [List.replicate_succ, List.sum_cons, ih]

/-- A fresh grid is well formed. -/
theorem gridWF_mkGrid (α : Type) (n : Int) : gridWF n (mkGrid α n) := by
  constructor
  · rw [mkGrid]
    exact List.length_replicate _ _
  · intro row hrow
    rw [mkGrid] at hrow
    rw [List.eq_of_mem_replicate hrow]
    exact List.length_replicate _ _

/-- A freshly created base state satisfies the structural invariant. -/
theorem wf_create_base (n : Int) : (BaseSOSGame.create n).wf := by
  refine ⟨le_max_left _ _, gridWF_mkGrid Letter _, gridWF_mkGrid Player _,
    rfl, ?_⟩
  show 0 = countFilled (mkGrid Letter (max 3 n))
  rw [countFilled_mkGrid]

/-- The simple mutation block preserves the structural invariant. -/
theorem wf_applyMove_S {g : SimpleSOSGame} (hwf : g.toBaseSOSGame.wf)
    {r c : Int} {L : Letter} (hce : g.toBaseSOSGame.cell_empty r c = true) :
    (g.applyMove r c L).toBaseSOSGame.wf := by
  obtain ⟨h3, hb, ho, hmh, hmc⟩ := hwf
  obtain ⟨hib, hemp⟩ := cell_empty_elim hce
  obtain ⟨hrn, hcn⟩ := in_bounds_toNat hib
  refine ⟨?_, ?_, ?_, ?_, ?_⟩
  · rw [AS_size]; exact h3
  · rw [AS_size, AS_board]; exact gridWF_gridSet hb hrn _
  · rw [AS_size, AS_owner]; exact gridWF_gridSet ho hrn _
  · rw [AS_count, AS_hist, List.length_append]
    simp [hmh]
  · rw [AS_count, AS_board, countFilled_gridSet hb hrn hcn hemp]
    omega

/-- The general mutation block preserves the structural invariant. -/
theorem wf_applyMove_G {g : GeneralSOSGame} (hwf : g.toBaseSOSGame.wf)
    {r c : Int} {L : Letter} (hce : g.toBaseSOSGame.cell_empty r c = true) :
    (g.applyMove r c L).toBaseSOSGame.wf := by
  obtain ⟨h3, hb, ho, hmh, hmc⟩ := hwf
  obtain ⟨hib, hemp⟩ := cell_empty_elim hce
  obtain ⟨hrn, hcn⟩ := in_bounds_toNat hib
  refine ⟨?_, ?_, ?_, ?_, ?_⟩
  · rw [AG_size]; exact h3
  · rw [AG_size, AG_board]; exact gridWF_gridSet hb hrn _
  · rw [AG_size, AG_owner]; exact gridWF_gridSet ho hrn _
  · rw [AG_count, AG_hist, List.length_append]
    simp [hmh]
  · rw [AG_count, AG_board, countFilled_gridSet hb hrn hcn hemp]
    omega

/-- One simple move preserves the structural invariant. -/
theorem wf_step_S {g : SimpleSOSGame} (hwf : g.toBaseSOSGame.wf)
    (m : MoveIn) :
    ((SimpleSOSGame.make_move g m.1 m.2.1 m.2.2).2).toBaseSOSGame.wf := by
  rcases hmm : SimpleSOSGame.make_move g m.1 m.2.1 m.2.2 with ⟨b, g2⟩
  cases b
  · rw [makeMoveS_false_eq hmm]; exact hwf
  · obtain ⟨hgo, L, hnl, hce, rfl⟩ := makeMoveS_success hmm
    exact wf_applyMove_S hwf hce

/-- One general move preserves the structural invariant. -/
theorem wf_step_G {g : GeneralSOSGame} (hwf : g.toBaseSOSGame.wf)
    (m : MoveIn) :
    ((GeneralSOSGame.make_move g m.1 m.2.1 m.2.2).2).toBaseSOSGame.wf := by
  rcases hmm : GeneralSOSGame.make_move g m.1 m.2.1 m.2.2 with ⟨b, g2⟩
  cases b
  · rw [makeMoveG_false_eq hmm]; exact hwf
  · obtain ⟨hgo, L, hnl, hce, rfl⟩ := makeMoveG_success hmm
    exact wf_applyMove_G hwf hce

/-- A whole simple play preserves the structural invariant. -/
theorem wf_play_S {g : SimpleSOSGame} (hwf : g.toBaseSOSGame.wf)
    (ms : List MoveIn) : (playS g ms).toBaseSOSGame.wf := by
  induction ms generalizing g with
  | nil => exact hwf
  | cons m ms ih => exact ih (wf_step_S hwf m)

/-- A whole general play preserves the structural invariant. -/
theorem wf_play_G {g : GeneralSOSGame} (hwf : g.toBaseSOSGame.wf)
    (ms : List MoveIn) : (playG g ms).toBaseSOSGame.wf := by
  induction ms generalizing g with
  | nil => exact hwf
  | cons m ms ih => exact ih (wf_step_G hwf m)

/-- A successful simple move fills its target cell. -/
theorem filled_after_success_S {g : SimpleSOSGame} (hwf : g.toBaseSOSGame.wf)
    {r c : Int} {s : String} {g' : SimpleSOSGame}
    (h : SimpleSOSGame.make_move g r c s = (true, g')) :
    ∃ L, g'.toBaseSOSGame.get_cell r c = some L := by
  obtain ⟨hgo, L, hnl, hce, rfl⟩ := makeMoveS_success h
  obtain ⟨hib, hemp⟩ := cell_empty_elim hce
  obtain ⟨hrn, hcn⟩ := in_bounds_toNat hib
  refine ⟨L, ?_⟩
  unfold BaseSOSGame.get_cell
  rw [in_bounds_applyMove_S, hib, if_pos rfl, AS_board]
  exact gridGet_gridSet_self hwf.2.1 hrn hcn (some L)

/-- A successful general move fills its target cell. -/
theorem filled_after_success_G {g : GeneralSOSGame} (hwf : g.toBaseSOSGame.wf)
    {r c : Int} {s : String} {g' : GeneralSOSGame}
    (h : GeneralSOSGame.make_move g r c s = (true, g')) :
    ∃ L, g'.toBaseSOSGame.get_cell r c = some L := by
  obtain ⟨hgo, L, hnl, hce, rfl⟩ := makeMoveG_success h
  obtain ⟨hib, hemp⟩ := cell_empty_elim hce
  obtain ⟨hrn, hcn⟩ := in_bounds_toNat hib
  refine ⟨L, ?_⟩
  unfold BaseSOSGame.get_cell
  rw [in_bounds_applyMove_G, hib, if_pos rfl, AG_board]
  exact gridGet_gridSet_self hwf.2.1 hrn hcn (some L)


/-- C7: monotonic occupancy. After a successful placement at (r, c) in a
game reached from creation, the cell is no longer empty and stays
non-empty under any further sequence of moves, in both modes; and in any
state whatsoever, a cell holding a letter still holds that same letter
after any sequence of moves. -/
theorem C7_monotonic_occupancy
    (n : Int) (ms0 : List MoveIn) (r c : Int) (s : String)
    (gs' : SimpleSOSGame)
    (hs : SimpleSOSGame.make_move (playS (SimpleSOSGame.create n) ms0)
      r c s = (true, gs'))
    (ms1 : List MoveIn)
    (m2 : Int) (mg0 : List MoveIn) (r2 c2 : Int) (s2 : String)
    (gg' : GeneralSOSGame)
    (hg : GeneralSOSGame.make_move (playG (GeneralSOSGame.create m2) mg0)
      r2 c2 s2 = (true, gg'))
    (mg1 : List MoveIn)
    (gA : SimpleSOSGame) (rA cA : Int) (LA : Letter)
    (hA : gA.toBaseSOSGame.get_cell rA cA = some LA) (msA : List MoveIn)
    (gB : GeneralSOSGame) (rB cB : Int) (LB : Letter)
    (hB : gB.toBaseSOSGame.get_cell rB cB = some LB) (msB : List MoveIn) :
    gs'.toBaseSOSGame.cell_empty r c = false ∧
    (playS gs' ms1).toBaseSOSGame.cell_empty r c = false ∧
    gg'.toBaseSOSGame.cell_empty r2 c2 = false ∧
    (playG gg' mg1).toBaseSOSGame.cell_empty r2 c2 = false ∧
    (playS gA msA).toBaseSOSGame.get_cell rA cA = some LA ∧
    (playG gB msB).toBaseSOSGame.get_cell rB cB = some LB := by
  have hwS : (playS (SimpleSOSGame.create n) ms0).toBaseSOSGame.wf :=
    wf_play_S (wf_create_base n) ms0
  have hwG : (playG (GeneralSOSGame.create m2) mg0).toBaseSOSGame.wf :=
    wf_play_G (wf_create_base m2) mg0
  obtain ⟨LS, hLS⟩ := filled_after_success_S hwS hs
  obtain ⟨LG, hLG⟩ := filled_after_success_G hwG hg
  exact ⟨cell_not_empty_of_get hLS,
    cell_not_empty_of_get (get_cell_play_S gs' ms1 hLS),
    cell_not_empty_of_get hLG,
    cell_not_empty_of_get (get_cell_play_G gg' mg1 hLG),
    get_cell_play_S gA msA hA,
    get_cell_play_G gB msB hB⟩

/-- Witness for C7 at concrete second moves on 3-by-3 boards. -/
theorem C7_monotonic_occupancy_witness :
    (SimpleSOSGame.make_move gameOne 1 1 "O").2.toBaseSOSGame.cell_empty 1 1
      = false ∧
    (playS (SimpleSOSGame.make_move gameOne 1 1 "O").2
      [(2, 2, "S")]).toBaseSOSGame.cell_empty 1 1 = false ∧
    (GeneralSOSGame.make_move gameOneG 1 1 "O").2.toBaseSOSGame.cell_empty 1 1
      = false ∧
    (playG (GeneralSOSGame.make_move gameOneG 1 1 "O").2
      [(2, 2, "S")]).toBaseSOSGame.cell_empty 1 1 = false ∧
    (playS gameOne [(1, 1, "O"), (2, 2, "S")]).toBaseSOSGame.get_cell 0 0
      = some Letter.S ∧
    (playG gameOneG [(1, 1, "O"), (2, 2, "S")]).toBaseSOSGame.get_cell 0 0
      = some Letter.S :=
  C7_monotonic_occupancy 3 [(0, 0, "S")] 1 1 ("O")
    (SimpleSOSGame.make_move gameOne 1 1 "O").2 (by decide) [(2, 2, "S")]
    3 [(0, 0, "S")] 1 1 ("O")
    (GeneralSOSGame.make_move gameOneG 1 1 "O").2 (by decide) [(2, 2, "S")]
    gameOne 0 0 Letter.S (by decide) [(1, 1, "O"), (2, 2, "S")]
    gameOneG 0 0 Letter.S (by decide) [(1, 1, "O"), (2, 2, "S")]


/-- In a list of naturals bounded by m whose sum reaches length times m,
every element equals m. -/
theorem list_sum_bound_eq : ∀ (l : List Nat) (m : Nat),
    (∀ x ∈ l, x ≤ m) → l.sum = l.length * m → ∀ x ∈ l, x = m := by
  intro l
  induction l with
  | nil =>
    intro m _ _ x hx
    cases hx
  | cons a as ih =>
    intro m hle hsum x hx
    have hle' : ∀ x ∈ as, x ≤ m := fun y hy => hle y (List.mem_cons_of_mem a hy)
    have hbound : as.sum ≤ as.length * m := by
      have := List.sum_le_card_nsmul as m hle'
      rwa [smul_eq_mul] at this
    have ha : a ≤ m := hle a (List.mem_cons_self a as)
    rw [List.sum_cons, List.length_cons, Nat.succ_mul] at hsum
    have hsum' : as.sum = as.length * m := by omega
    have ha' : a = m := by omega
    rcases List.mem_cons.mp hx with h | h
    · rw [h, ha']
    · exact ih m hle' hsum' x h

/-- Under the structural invariant, the move-counter full test holds
exactly when every cell of the board is occupied. -/
theorem full_iff_all {g : BaseSOSGame} (hwf : g.wf) :
    (g.is_board_full = true ↔ allCellsFilled g.board = true) := by
  obtain ⟨h3, ⟨hlen, hrows⟩, ho, hmh, hmc⟩ := hwf
  have hmaplen :
      (g.board.map (fun row => row.countP (fun x => x.isSome))).length
        = g.board_size.toNat := by
    rw [List.length_map]
    exact hlen
  have hbnd : ∀ x ∈ g.board.map (fun row => row.countP (fun x => x.isSome)),
      x ≤ g.board_size.toNat := by
    intro x hx
    rw [List.mem_map] at hx
    obtain ⟨row, hrow, rfl⟩ := hx
    calc row.countP (fun x => x.isSome) ≤ row.length :=
        List.countP_le_length _
      _ = g.board_size.toNat := hrows row hrow
  have hcf_le : countFilled g.board
      ≤ g.board_size.toNat * g.board_size.toNat := by
    have h2 := List.sum_le_card_nsmul _ _ hbnd
    rw [smul_eq_mul, hmaplen] at h2
    exact h2
  unfold BaseSOSGame.is_board_full
  rw [decide_eq_true_eq]
  have hs : (g.board_size : Int) = ((g.board_size.toNat : Nat) : Int) := by
    omega
  constructor
  · intro h
    rw [hs] at h
    have h2 : g.board_size.toNat * g.board_size.toNat ≤ g.move_count := by
      exact_mod_cast h
    have hcf_eq : countFilled g.board
        = g.board_size.toNat * g.board_size.toNat := by
      omega
    have hall := list_sum_bound_eq _ _ hbnd (by rw [hmaplen]; exact hcf_eq)
    unfold allCellsFilled
    rw [List.all_eq_true]
    intro row hrow
    rw [List.all_eq_true]
    have hcnt : row.countP (fun x => x.isSome) = g.board_size.toNat :=
      hall _ (List.mem_map_of_mem _ hrow)
    have hfullrow : row.countP (fun x => x.isSome) = row.length := by
      rw [hcnt, hrows row hrow]
    exact fun x hx => List.countP_eq_length.mp hfullrow x hx
  · intro h
    have hemap : ∀ x ∈ g.board.map (fun row => row.countP (fun x => x.isSome)),
        x = g.board_size.toNat := by
      intro x hx
      rw [List.mem_map] at hx
      obtain ⟨row, hrow, rfl⟩ := hx
      unfold allCellsFilled at h
      rw [List.all_eq_true] at h
      have hr := h row hrow
      rw [List.all_eq_true] at hr
      rw [List.countP_eq_length.mpr hr]
      exact hrows row hrow
    have hsum := List.sum_eq_card_nsmul _ _ hemap
    rw [smul_eq_mul, hmaplen] at hsum
    have hcf : countFilled g.board
        = g.board_size.toNat * g.board_size.toNat := hsum
    rw [hs]
    have hmc' : g.move_count = g.board_size.toNat * g.board_size.toNat := by
      omega
    rw [hmc']
    push_cast
    exact le_refl _

/-- C10: in every game reached from creation by make_move calls alone, the
move counter equals the history length and the number of occupied cells,
and the full test (counter at least squared size) holds exactly when every
cell is occupied, in both modes. -/
theorem C10_bookkeeping_invariant (n m : Int) (ms mg : List MoveIn) :
    (playS (SimpleSOSGame.create n) ms).move_count
      = (playS (SimpleSOSGame.create n) ms).move_history.length ∧
    (playS (SimpleSOSGame.create n) ms).move_count
      = countFilled (playS (SimpleSOSGame.create n) ms).board ∧
    ((playS (SimpleSOSGame.create n) ms).toBaseSOSGame.is_board_full = true
      ↔ allCellsFilled (playS (SimpleSOSGame.create n) ms).board = true) ∧
    (playG (GeneralSOSGame.create m) mg).move_count
      = (playG (GeneralSOSGame.create m) mg).move_history.length ∧
    (playG (GeneralSOSGame.create m) mg).move_count
      = countFilled (playG (GeneralSOSGame.create m) mg).board ∧
    ((playG (GeneralSOSGame.create m) mg).toBaseSOSGame.is_board_full = true
      ↔ allCellsFilled (playG (GeneralSOSGame.create m) mg).board = true) := by
  have hwS : (playS (SimpleSOSGame.create n) ms).toBaseSOSGame.wf :=
    wf_play_S (wf_create_base n) ms
  have hwG : (playG (GeneralSOSGame.create m) mg).toBaseSOSGame.wf :=
    wf_play_G (wf_create_base m) mg
  exact ⟨hwS.2.2.2.1, hwS.2.2.2.2, full_iff_all hwS,
    hwG.2.2.2.1, hwG.2.2.2.2, full_iff_all hwG⟩


/-! Boundary-safety lemmas. -/

/-- in_bounds only depends on the board size. -/
theorem in_bounds_congr {g g' : BaseSOSGame}
    (hsz : g'.board_size = g.board_size) (a b : Int) :
    g'.in_bounds a b = g.in_bounds a b := by
  unfold BaseSOSGame.in_bounds
  rw [hsz]

/-- form_sos never reads a cell outside the grid: its value is unchanged
when the board is replaced by any board agreeing on the in-bounds cells. -/
theorem form_sos_congr {g g' : BaseSOSGame}
    (hsz : g'.board_size = g.board_size)
    (hag : ∀ r1 c1 : Int, g.in_bounds r1 c1 = true →
      gridGet g'.board r1 c1 = gridGet g.board r1 c1)
    (r c dr dc : Int) : g'.form_sos r c dr dc = g.form_sos r c dr dc := by
  unfold BaseSOSGame.form_sos
  rw [in_bounds_congr hsz r c, in_bounds_congr hsz (r + dr) (c + dc),
    in_bounds_congr hsz (r + 2*dr) (c + 2*dc)]
  split <;> rename_i hb
  · have hb' := hb
    rw [Bool.and_eq_true, Bool.and_eq_true] at hb'
    rw [hag r c hb'.1.1, hag (r + dr) (c + dc) hb'.1.2,
      hag (r + 2*dr) (c + 2*dc) hb'.2]
  · rfl

/-- check_for_sos never reads a cell outside the grid. -/
theorem check_for_sos_congr {g g' : BaseSOSGame}
    (hsz : g'.board_size = g.board_size)
    (hag : ∀ r1 c1 : Int, g.in_bounds r1 c1 = true →
      gridGet g'.board r1 c1 = gridGet g.board r1 c1)
    (r c : Int) : g'.check_for_sos r c = g.check_for_sos r c := by
  unfold BaseSOSGame.check_for_sos BaseSOSGame.sosCandidates
  simp only [form_sos_congr hsz hag]

/-- Membership in the duplicate-suppressing fold implies membership in the
scanned list. -/
theorem mem_pyDedup_aux (l : List Quad) : ∀ (acc : List Quad) (a : Quad),
    a ∈ l.foldl (fun u s => if s ∈ u then u else u ++ [s]) acc →
    a ∈ acc ∨ a ∈ l := by
  induction l with
  | nil =>
    intro acc a h
    exact Or.inl h
  | cons x xs ih =>
    intro acc a h
    rw [List.foldl_cons] at h
    rcases ih _ a h with h' | h'
    · by_cases hx : x ∈ acc
      · rw [if_pos hx] at h'
        exact Or.inl h'
      · rw [if_neg hx] at h'
        rcases List.mem_append.mp h' with h2 | h2
        · exact Or.inl h2
        · rw [List.mem_singleton] at h2
          subst h2
          exact Or.inr (List.mem_cons_self _ _)
    · exact Or.inr (List.mem_cons_of_mem _ h')

/-- Membership after duplicate removal implies membership before. -/
theorem mem_pyDedup {a : Quad} {l : List Quad}
    (h : a ∈ BaseSOSGame.pyDedup l) : a ∈ l := by
  unfold BaseSOSGame.pyDedup at h
  rcases mem_pyDedup_aux l [] a h with h' | h'
  · cases h'
  · exact h'

/-- A window accepted by form_sos lies fully in bounds. -/
theorem form_sos_bounds {g : BaseSOSGame} {r c dr dc : Int}
    (h : g.form_sos r c dr dc = true) :
    g.in_bounds r c = true ∧ g.in_bounds (r + dr) (c + dc) = true ∧
    g.in_bounds (r + 2*dr) (c + 2*dc) = true := by
  unfold BaseSOSGame.form_sos at h
  split at h <;> rename_i hb
  · rw [Bool.and_eq_true, Bool.and_eq_true] at hb
    exact ⟨hb.1.1, hb.1.2, hb.2⟩
  · cases h

/-- Every line reported by check_for_sos has both endpoints in bounds. -/
theorem check_for_sos_mem_bounds {g : BaseSOSGame} {r c : Int} {q : Quad}
    (h : q ∈ g.check_for_sos r c) :
    g.in_bounds q.r1 q.c1 = true ∧ g.in_bounds q.r2 q.c2 = true := by
  unfold BaseSOSGame.check_for_sos at h
  have h2 := mem_pyDedup h
  rw [List.mem_flatten] at h2
  obtain ⟨cand, hcand, hq⟩ := h2
  rw [List.mem_map] at hcand
  obtain ⟨d, hd, rfl⟩ := hcand
  unfold BaseSOSGame.sosCandidates at hq
  rcases List.mem_append.mp hq with hq | hq
  · split at hq <;> rename_i hf
    · rw [List.mem_singleton] at hq
      subst hq
      obtain ⟨hb1, hb2, hb3⟩ := form_sos_bounds hf
      exact ⟨hb1, hb3⟩
    · cases hq
  · split at hq <;> rename_i hf
    · rw [List.mem_singleton] at hq
      subst hq
      obtain ⟨hb1, hb2, hb3⟩ := form_sos_bounds hf
      refine ⟨hb1, ?_⟩
      have he1 : r + 2 * -d.1 = r - 2 * d.1 := by ring
      have he2 : c + 2 * -d.2 = c - 2 * d.2 := by ring
      rw [he1, he2] at hb3
      exact hb3
    · cases hq

/-- C8: boundary safety of the sos scan. The scan result is unchanged when
the board is replaced by any board agreeing on the in-bounds cells, so no
cell outside the N-by-N grid is ever read; every reported line has both
endpoints in bounds; and any 3-cell window that extends out of bounds is
rejected (form_sos is false) before any cell access. -/
theorem C8_boundary_safety (g g' : BaseSOSGame) (r c dr dc : Int)
    (hsz : g'.board_size = g.board_size)
    (hag : ∀ r1 c1 : Int, g.in_bounds r1 c1 = true →
      gridGet g'.board r1 c1 = gridGet g.board r1 c1)
    (hout : (g.in_bounds r c && g.in_bounds (r + dr) (c + dc)
      && g.in_bounds (r + 2*dr) (c + 2*dc)) = false) :
    g'.check_for_sos r c = g.check_for_sos r c ∧
    (∀ q ∈ g.check_for_sos r c,
      g.in_bounds q.r1 q.c1 = true ∧ g.in_bounds q.r2 q.c2 = true) ∧
    g.form_sos r c dr dc = false := by
  refine ⟨check_for_sos_congr hsz hag r c,
    fun q hq => check_for_sos_mem_bounds hq, ?_⟩
  unfold BaseSOSGame.form_sos
  rw [hout]
  rfl

/-- Witness for C8: the finished diagonal-free game against a copy padded
with a junk row below the grid, scanned at the corner (0, 0) with the
window pointing out of the board. -/
theorem C8_boundary_safety_witness :
    paddedWon.check_for_sos 0 0 = gameWon.toBaseSOSGame.check_for_sos 0 0 ∧
    (∀ q ∈ gameWon.toBaseSOSGame.check_for_sos 0 0,
      gameWon.toBaseSOSGame.in_bounds q.r1 q.c1 = true ∧
      gameWon.toBaseSOSGame.in_bounds q.r2 q.c2 = true) ∧
    gameWon.toBaseSOSGame.form_sos 0 0 (-1) (-1) = false :=
  C8_boundary_safety gameWon.toBaseSOSGame paddedWon 0 0 (-1) (-1)
    (by decide)
    (by
      intro r1 c1 h
      have hb := of_decide_eq_true h
      have hbs : gameWon.toBaseSOSGame.board_size = 3 := by decide
      rw [hbs] at hb
      obtain ⟨h1, h2, h3, h4⟩ := hb
      have hr : r1 = 0 ∨ r1 = 1 ∨ r1 = 2 := by omega
      rcases hr with rfl | rfl | rfl <;> rfl)
    (by decide)


/-! Replay reconstruction lemmas. -/

/-- Replay ignores the sos field of each entry. -/
theorem replayStepS_tupleize (g : SimpleSOSGame) (mv : MoveRec) :
    replayStepS g (tupleizeRec mv) = replayStepS g mv := rfl

/-- Replay ignores the sos field of each entry. -/
theorem replayStepG_tupleize (g : GeneralSOSGame) (mv : MoveRec) :
    replayStepG g (tupleizeRec mv) = replayStepG g mv := rfl

theorem replayS_map_tupleize : ∀ (ms : List MoveRec) (g : SimpleSOSGame),
    replayS g (ms.map tupleizeRec) = replayS g ms := by
  intro ms
  induction ms with
  | nil => intro g; rfl
  | cons mv ms ih =>
    intro g
    rw [List.map_cons]
    show replayS (replayStepS g (tupleizeRec mv)) (ms.map tupleizeRec)
      = replayS (replayStepS g mv) ms
    rw [replayStepS_tupleize]
    exact ih _

theorem replayG_map_tupleize : ∀ (ms : List MoveRec) (g : GeneralSOSGame),
    replayG g (ms.map tupleizeRec) = replayG g ms := by
  intro ms
  induction ms with
  | nil => intro g; rfl
  | cons mv ms ih =>
    intro g
    rw [List.map_cons]
    show replayG (replayStepG g (tupleizeRec mv)) (ms.map tupleizeRec)
      = replayG (replayStepG g mv) ms
    rw [replayStepG_tupleize]
    exact ih _

/-- The export-import round trip maps each history entry through
tupleizeRec, simple mode. -/
theorem import_export_hist_S (g : SimpleSOSGame) :
    (g.import_record g.export_record).move_history
      = g.move_history.map tupleizeRec := by
  show (g.move_history.map BaseSOSGame.recToPayload).map BaseSOSGame.payloadToMem
    = g.move_history.map tupleizeRec
  rw [List.map_map]
  have hfun : BaseSOSGame.payloadToMem ∘ BaseSOSGame.recToPayload
      = tupleizeRec := by
    funext mv
    simp [BaseSOSGame.payloadToMem, BaseSOSGame.recToPayload, tupleizeRec,
      Function.comp, List.map_map]
  rw [hfun]

/-- The export-import round trip maps each history entry through
tupleizeRec, general mode. -/
theorem import_export_hist_G (g : GeneralSOSGame) :
    (g.import_record g.export_record).move_history
      = g.move_history.map tupleizeRec := by
  show (g.move_history.map BaseSOSGame.recToPayload).map BaseSOSGame.payloadToMem
    = g.move_history.map tupleizeRec
  rw [List.map_map]
  have hfun : BaseSOSGame.payloadToMem ∘ BaseSOSGame.recToPayload
      = tupleizeRec := by
    funext mv
    simp [BaseSOSGame.payloadToMem, BaseSOSGame.recToPayload, tupleizeRec,
      Function.comp, List.map_map]
  rw [hfun]

/-- Replaying the recorded history of any simple play against a fresh
instance of the same size, forcing the turn pointer to each recorded
player, rebuilds the exact final state. -/
theorem replayS_reconstructs (n : Int) (ms : List MoveIn) :
    replayS (SimpleSOSGame.create n)
        (playS (SimpleSOSGame.create n) ms).move_history
      = playS (SimpleSOSGame.create n) ms := by
  induction ms using List.reverseRecOn with
  | nil => rfl
  | append_singleton ms m ih =>
    rw [playS_append_singleton]
    rcases hmm : SimpleSOSGame.make_move (playS (SimpleSOSGame.create n) ms)
        m.1 m.2.1 m.2.2 with ⟨b, g2⟩
    cases b
    · rw [makeMoveS_false_eq hmm]
      exact ih
    · obtain ⟨hgo, L, hnl, hce, rfl⟩ := makeMoveS_success hmm
      rw [AS_hist, replayS_append_singleton, ih]
      show (SimpleSOSGame.make_move (playS (SimpleSOSGame.create n) ms)
          m.1 m.2.1 (Letter.str L)).2
        = (playS (SimpleSOSGame.create n) ms).applyMove m.1 m.2.1 L
      simp [SimpleSOSGame.make_move, hgo, normLetter_str, hce]

/-- Replaying the recorded history of any general play against a fresh
instance of the same size, forcing the turn pointer to each recorded
player, rebuilds the exact final state. -/
theorem replayG_reconstructs (m : Int) (mg : List MoveIn) :
    replayG (GeneralSOSGame.create m)
        (playG (GeneralSOSGame.create m) mg).move_history
      = playG (GeneralSOSGame.create m) mg := by
  induction mg using List.reverseRecOn with
  | nil => rfl
  | append_singleton mg mv ih =>
    rw [playG_append_singleton]
    rcases hmm : GeneralSOSGame.make_move (playG (GeneralSOSGame.create m) mg)
        mv.1 mv.2.1 mv.2.2 with ⟨b, g2⟩
    cases b
    · rw [makeMoveG_false_eq hmm]
      exact ih
    · obtain ⟨hgo, L, hnl, hce, rfl⟩ := makeMoveG_success hmm
      rw [AG_hist, replayG_append_singleton, ih]
      show (GeneralSOSGame.make_move (playG (GeneralSOSGame.create m) mg)
          mv.1 mv.2.1 (Letter.str L)).2
        = (playG (GeneralSOSGame.create m) mg).applyMove mv.1 mv.2.1 L
      simp [GeneralSOSGame.make_move, hgo, normLetter_str, hce]

/-- C5 counterexample: after a finished concrete game, importing its own
export yields a history that is not equal field-for-field to the
pre-export one: the sos quadruples come back Python tuples where the live
history holds Python lists. -/
theorem C5_history_not_field_equal :
    (gameWon.import_record gameWon.export_record).move_history
      ≠ gameWon.move_history := by decide

/-- C5 (amended): importing the exported record yields the pre-export
history with each sos quadruple converted from list to tuple shape (same
fields and integers otherwise), and replaying that history in order
through make_move on a fresh instance of the same size, forcing the turn
pointer to each recorded player, reproduces the identical final state
(board, ownership map, winner or scores, move counter), in both modes. -/
theorem C5_roundtrip_amended (n m : Int) (ms mg : List MoveIn) :
    ((playS (SimpleSOSGame.create n) ms).import_record
        ((playS (SimpleSOSGame.create n) ms).export_record)).move_history
      = (playS (SimpleSOSGame.create n) ms).move_history.map tupleizeRec ∧
    replayS (SimpleSOSGame.create n)
        (((playS (SimpleSOSGame.create n) ms).import_record
          ((playS (SimpleSOSGame.create n) ms).export_record)).move_history)
      = playS (SimpleSOSGame.create n) ms ∧
    ((playG (GeneralSOSGame.create m) mg).import_record
        ((playG (GeneralSOSGame.create m) mg).export_record)).move_history
      = (playG (GeneralSOSGame.create m) mg).move_history.map tupleizeRec ∧
    replayG (GeneralSOSGame.create m)
        (((playG (GeneralSOSGame.create m) mg).import_record
          ((playG (GeneralSOSGame.create m) mg).export_record)).move_history)
      = playG (GeneralSOSGame.create m) mg := by
  refine ⟨import_export_hist_S _, ?_, import_export_hist_G _, ?_⟩
  · rw [import_export_hist_S, replayS_map_tupleize, replayS_reconstructs]
  · rw [import_export_hist_G, replayG_map_tupleize, replayG_reconstructs]

end SOS
